import Mathlib

/-!
Verification of the matching-snuggies job scheduling and persistence engine.

This file gives a shallow embedding of the Go sources under `cmd/snuggied`
(`db.go`, `snuggied.go`) and the `slicerjob` package, and proves or refutes
the frozen claims about them.

Modelling conventions:
- A bolt bucket is an association list `List (String × α)`; `getK`, `putK`,
  `delK` model `Bucket.Get`, `Bucket.Put`, `Bucket.Delete`.  Bucket cursors
  iterate over a snapshot of the entry list taken at transaction start.
- `time.Time` values are `Nat` instants; `t1.After t2` is `t2 < t1`.
  Wall-clock reads (`time.Now()`) become explicit parameters.
- The timeout channel created from a time budget is an oracle
  `Nat → Bool` telling whether the i-th between-records select observes
  the budget as elapsed.
- Go `error` results become `Option String` / `Except String`; `none` /
  `.ok` is the nil error.
- `float64` progress becomes `Rat`; machine floats play no role in any claim.
-/

namespace Snuggies

/-- Get on an association-list bucket, first match wins (keys are unique in
a real bucket). Models `bolt.Bucket.Get` / `boltGet`. -/
def getK {α : Type} : List (String × α) → String → Option α
  | [], _ => none
  | (a, v) :: t, k => if a = k then some v else getK t k

/-- Put on an association-list bucket: replace the existing entry for the
key, or append a fresh one. Models `bolt.Bucket.Put` / `boltPut`. -/
def putK {α : Type} : List (String × α) → String → α → List (String × α)
  | [], k, v => [(k, v)]
  | (a, b) :: t, k, v => if a = k then (k, v) :: t else (a, b) :: putK t k v

/-- Delete on an association-list bucket. Models `bolt.Bucket.Delete` /
`boltDel` (deleting an absent key succeeds). -/
def delK {α : Type} : List (String × α) → String → List (String × α)
  | [], _ => []
  | (a, b) :: t, k => if a = k then delK t k else (a, b) :: delK t k

namespace slicerjob

/-- Go: `type Status int` (slicerjob/status.go). -/
abbrev Status := Int

/-- Go: `Accepted Status = iota`. -/
def Accepted : Status := 0

/-- Go: `Processing`. -/
def Processing : Status := 1

/-- Go: `Complete`. -/
def Complete : Status := 2

/-- Go: `Failed`. -/
def Failed : Status := 3

/-- Go: `Cancelled`. -/
def Cancelled : Status := 4

/-- Go: `Invalid`. -/
def Invalid : Status := 5

/-- Go: `var statusStrings = []string{...}`, indexed by the constants. -/
def statusStrings : List String :=
  ["accepted", "processing", "complete", "failed", "cancelled", "INVALIDSTATUS"]

/-- Go: `var statusParse = map[string]Status{...}` — note that it contains an
entry for every declared constant, `Invalid` (wire string `INVALIDSTATUS`)
included. Lookup order is irrelevant for a map; the pair list mirrors the
literal. -/
def statusParse : List (String × Status) :=
  [("accepted", Accepted), ("processing", Processing), ("complete", Complete),
   ("cancelled", Cancelled), ("failed", Failed), ("INVALIDSTATUS", Invalid)]

/-- Go slice indexing `xs[i]` for a signed index: `none` models the
out-of-range panic. -/
def goIndex {α : Type} (xs : List α) (i : Int) : Option α :=
  if i < 0 then none else xs.get? i.toNat

/-- Go: `func (s Status) String() string { return statusStrings[s] }`.
`none` models the index-out-of-range panic. -/
def statusString (s : Status) : Option String :=
  goIndex statusStrings s

/-- Go: `func ParseStatus(str string) (Status, error)`. The second component
is the error (`none` = nil). -/
def ParseStatus (str : String) : Status × Option String :=
  match getK statusParse str with
  | some s => (s, none)
  | none => (Invalid, some "invalid status")

/-- Go: `type Job struct` (slicerjob/job.go). Timestamps are `Option Nat`
instants (`*time.Time`), progress is `Rat` (`float64`). -/
structure Job where
  id : String
  status : Status
  progress : Rat
  url : String
  gcodeURL : String
  created : Option Nat
  updated : Option Nat
  terminated : Option Nat
  deriving DecidableEq

end slicerjob

/-- The four buckets of the embedded store (cmd/snuggied/db.go: `dbJobs`,
`dbMeshFiles`, `dbGCodeFiles`, `dbDelFiles`). Job values are stored
structurally; JSON (un)marshalling of well-formed records is the identity
and its failure branches are not modelled. -/
structure DBState where
  jobs : List (String × slicerjob.Job)
  meshFiles : List (String × String)
  gCodeFiles : List (String × String)
  delFiles : List (String × String)
  deriving DecidableEq

/-- Go: `boltCopyKey(tx, srcBucket, srcKey, dstBucket, dstKey)` — fails with
"source does not exist" when the source key is absent, otherwise puts the
value under the destination key. Returns the new destination bucket. -/
def boltCopyKey (src : List (String × String)) (srcKey : String)
    (dst : List (String × String)) (dstKey : String) :
    Except String (List (String × String)) :=
  match getK src srcKey with
  | none => .error "source does not exist"
  | some v => .ok (putK dst dstKey v)

/-- Go: `delMeshFile(tx, id)` (db.go:311). Copies the mesh-file entry into
the pending-deletion bucket under key `ts/meshes/id` (`ts` is the RFC3339
`time.Now()` string, passed explicitly), then — as written in the source —
deletes the id from the G-CODE bucket `dbGCodeFiles`, not from
`dbMeshFiles`. -/
def delMeshFile (ts id : String) (db : DBState) : Except String DBState :=
  match boltCopyKey db.meshFiles id db.delFiles (ts ++ "/meshes/" ++ id) with
  | .error e => .error e
  | .ok d =>
      .ok { db with delFiles := d, gCodeFiles := delK db.gCodeFiles id }

/-- Go: `delGCodeFile(tx, id)` (db.go:322). Copies the gcode entry into the
pending-deletion bucket under `ts/gcodes/id`, then deletes the id from
`dbGCodeFiles`. -/
def delGCodeFile (ts id : String) (db : DBState) : Except String DBState :=
  match boltCopyKey db.gCodeFiles id db.delFiles (ts ++ "/gcodes/" ++ id) with
  | .error e => .error e
  | .ok d =>
      .ok { db with delFiles := d, gCodeFiles := delK db.gCodeFiles id }

/-- Helper for `_ = delMeshFile(tx, id)`: the error is discarded and, since
both helpers fail only before their first mutation, a failing call leaves
the transaction state untouched. -/
def applyOr (r : Except String DBState) (db : DBState) : DBState :=
  match r with
  | .ok d => d
  | .error _ => db

/-- Go: `deleteJob(tx, id)` (db.go:192): stage both registry entries
(errors ignored), then delete the job record. -/
def deleteJob (ts id : String) (db : DBState) : DBState :=
  let db1 := applyOr (delMeshFile ts id db) db
  let db2 := applyOr (delGCodeFile ts id db1) db1
  { db2 with jobs := delK db2.jobs id }

/-- Go: `CancelJob(id)` (db.go:171): read-modify-write in one transaction;
`now` is the `time.Now()` read. Sets status, terminated and updated
unconditionally on any record found. -/
def CancelJob (now : Nat) (id : String) (db : DBState) : Except String DBState :=
  match getK db.jobs id with
  | none => .error "job not found"
  | some job =>
      let job1 := { job with status := slicerjob.Cancelled,
                             terminated := some now, updated := some now }
      .ok { db with jobs := putK db.jobs id job1 }

/-- Go: `lookupJob` (snuggied HTTP layer) via `ViewJob`/`boltGetJSON`:
a missing record surfaces as a not-found error. -/
def lookupJob (db : DBState) (id : String) : Except String slicerjob.Job :=
  match getK db.jobs id with
  | none => .error ("Job not found with id: " ++ id)
  | some j => .ok j

/-- Go: `(srv *SnuggieServer) JobDone(id, path string, err error)`.
`srvURL` stands for `srv.BaseURL + srv.Prefix`; `now` is the `time.Now()`
read. On a non-nil `err` the function only logs
`FIXME -- failed job` and returns, leaving the store untouched. On the nil
path it stores the gcode path, reloads the record and overwrites it with
status Complete and fresh timestamps, whatever its previous status was. -/
def JobDone (now : Nat) (srvURL id path : String) (err : Option String)
    (db : DBState) : DBState :=
  match err with
  | some _ => db
  | none =>
      let db1 := { db with gCodeFiles := putK db.gCodeFiles id path }
      match getK db1.jobs id with
      | none => db1
      | some job =>
          let job1 := { job with status := slicerjob.Complete,
                                 gcodeURL := srvURL ++ "/gcodes/" ++ id,
                                 progress := 1,
                                 updated := some now,
                                 terminated := some now }
          { db1 with jobs := putK db1.jobs id job1 }

/-- The two sentinel errors of the sweep operations
(`ErrMaxDeleted`, `ErrExceededMaxDur`) together with the nil result. -/
inductive GCResult where
  | ok
  | maxDeleted
  | exceededMaxDur
  deriving DecidableEq

/-- Result of `DeleteOldJobs`: final store, number of deletions performed
(`numDel`, printed by the log line), whether the budget was observed to
elapse (`istimeout`), and the returned error. -/
structure SweepResult where
  db : DBState
  numDel : Nat
  istimeout : Bool
  result : GCResult
  deriving DecidableEq

/-- The cursor loop of `DeleteOldJobs` (db.go:211-243). `entries` is the
jobs-bucket snapshot, `i` the index of the between-records timeout check,
`oracle i` whether that check observes the budget as elapsed. A record
with nil `Terminated` is only logged; a record with
`job.Terminated.After(termBefore)` is skipped; otherwise the record is
cascade-deleted and the loop stops once `maxDel` deletions are reached. -/
def deleteOldJobsLoop (ts : String) (termBefore : Nat) (oracle : Nat → Bool)
    (maxDel : Nat) :
    List (String × slicerjob.Job) → Nat → Nat → DBState →
      DBState × Nat × Bool
  | [], _, numDel, db => (db, numDel, false)
  | (k, job) :: rest, i, numDel, db =>
    if oracle i then (db, numDel, true)
    else
      match job.terminated with
      | none => deleteOldJobsLoop ts termBefore oracle maxDel rest (i+1) numDel db
      | some t =>
        if termBefore < t then
          deleteOldJobsLoop ts termBefore oracle maxDel rest (i+1) numDel db
        else
          let db1 := deleteJob ts k db
          if numDel + 1 ≥ maxDel then (db1, numDel + 1, false)
          else deleteOldJobsLoop ts termBefore oracle maxDel rest (i+1) (numDel+1) db1

/-- Go: `DeleteOldJobs(termBefore, maxDur, maxDel)` (db.go:201-259):
runs the cursor loop, then returns `ErrMaxDeleted` when `numDel >= maxDel`,
else `ErrExceededMaxDur` when the timeout was observed, else nil. -/
def DeleteOldJobs (ts : String) (termBefore : Nat) (oracle : Nat → Bool)
    (maxDel : Nat) (db : DBState) : SweepResult :=
  let r := deleteOldJobsLoop ts termBefore oracle maxDel db.jobs 0 0 db
  { db := r.1, numDel := r.2.1, istimeout := r.2.2,
    result :=
      if r.2.1 ≥ maxDel then .maxDeleted
      else if r.2.2 then .exceededMaxDur
      else .ok }

/-- The cursor loop of `RemoveFiles` (db.go:271-293). The filesystem is the
list `fs` of existing paths; `os.Remove` succeeds iff the path is present
and otherwise fails with the IsNotExist error, in which case the code logs
and still falls through to `curs.Delete()`. Returns
(registry, fs, numDel, istimeout). -/
def removeFilesLoop (oracle : Nat → Bool) (maxDel : Nat) :
    List (String × String) → Nat → Nat → List (String × String) →
      List String → List (String × String) × List String × Nat × Bool
  | [], _, numDel, reg, fs => (reg, fs, numDel, false)
  | (k, v) :: rest, i, numDel, reg, fs =>
    if oracle i then (reg, fs, numDel, true)
    else if v ∈ fs then
      let fs1 := fs.erase v
      let reg1 := delK reg k
      if numDel + 1 ≥ maxDel then (reg1, fs1, numDel + 1, false)
      else removeFilesLoop oracle maxDel rest (i+1) (numDel+1) reg1 fs1
    else
      let reg1 := delK reg k
      if numDel + 1 ≥ maxDel then (reg1, fs, numDel + 1, false)
      else removeFilesLoop oracle maxDel rest (i+1) (numDel+1) reg1 fs

/-- Result of `RemoveFiles`: final store and filesystem, count of swept
entries, timeout flag and returned error. -/
structure FileSweepResult where
  db : DBState
  fs : List String
  numDel : Nat
  istimeout : Bool
  result : GCResult
  deriving DecidableEq

/-- Go: `RemoveFiles(maxDur, maxDel)` (db.go:261-309). -/
def RemoveFiles (oracle : Nat → Bool) (maxDel : Nat) (db : DBState)
    (fs : List String) : FileSweepResult :=
  let r := removeFilesLoop oracle maxDel db.delFiles 0 0 db.delFiles fs
  { db := { db with delFiles := r.1 }, fs := r.2.1,
    numDel := r.2.2.1, istimeout := r.2.2.2,
    result :=
      if r.2.2.1 ≥ maxDel then .maxDeleted
      else if r.2.2.2 then .exceededMaxDur
      else .ok }

/-- Go: `(srv *SnuggieServer) registerJob(...)` (snuggied.go, newer layout,
lines 385-428), on the path where the mesh file is written successfully.
`id` is the fresh UUID from `slicerjob.New()`, `now` its creation instant,
`ext` the mesh extension, `dataDir` the data directory, `srvURL` the base
URL + route path, `scheduleErr` the outcome of
`srv.S.ScheduleSliceJob` (`none` = nil). On a scheduling error the mesh
file is unlinked, `DeleteJob(job.ID)` runs and the error is returned. -/
def registerJob (db : DBState) (fs : List String) (id ext : String)
    (now : Nat) (ts srvURL dataDir : String) (scheduleErr : Option String) :
    DBState × List String × Except String slicerjob.Job :=
  let job : slicerjob.Job :=
    { id := id, status := slicerjob.Accepted, progress := 0,
      url := srvURL ++ "/jobs/" ++ id, gcodeURL := "",
      created := some now, updated := none, terminated := none }
  let path := dataDir ++ "/" ++ id ++ ext
  let fs1 := path :: fs
  let db1 := { db with meshFiles := putK db.meshFiles id path }
  let db2 := { db1 with jobs := putK db1.jobs id job }
  match scheduleErr with
  | some e => (deleteJob ts id db2, fs1.erase path, .error e)
  | none => (db2, fs1, .ok job)

/-- Which path invoked the completion callback `done(outputPath, error)`:
the runner-success path (`done(path, nil)`), the runner-failure path
(`done("", err)`), or the cancellation path (`done("", cancelErr)`). -/
inductive DoneKind where
  | success
  | failure
  | cancelled
  deriving DecidableEq

/-- The lifecycle state of one work item under the single worker loop and a
concurrent cancellation request. `doneCalls` records every invocation of
the completion callback. Modelled from the spec for the parts of the queue
not present under src (`MemoryQueue`, the work item's `Done`/`Cancel`
plumbing); the worker-side select is `RunConsumer`
(cmd/snuggied/snuggied.go:259-286). -/
structure ItemState where
  queued : Bool
  removedByCancel : Bool
  dispatched : Bool
  cancelSignalled : Bool
  runnerResult : Option Bool
  selectResolved : Bool
  doneCalls : List DoneKind
  deriving DecidableEq

/-- Atomic events of the two concurrent actors: the cancellation request
(HTTP DELETE path) and the worker loop with its runner goroutine. -/
inductive QEvent where
  | cancelRequest
  | dispatch
  | runnerFinish (ok : Bool)
  | selectCancel
  | selectResult
  deriving DecidableEq

/-- One interleaving step. `cancelRequest` is modelled from the spec
(section 4.2): on a still-queued item the queue removes it and invokes the
callback with a cancellation error; on a dispatched item it only triggers
the cancellation signal; on a finished item it is a no-op. `dispatch` is
`Consumer.NextSliceJob` handing the item to the worker. `runnerFinish`
delivers `runConsumerJob`'s result into the buffered channel.
`selectCancel` / `selectResult` are the two arms of the worker's select in
`RunConsumer`; the worker resolves the select at most once per item, and
each arm calls `job.Done` exactly at its firing. Events whose guard does
not hold leave the state unchanged. -/
def qstep (s : ItemState) (e : QEvent) : ItemState :=
  match e with
  | .cancelRequest =>
      if s.queued then
        { s with queued := false, removedByCancel := true,
                 doneCalls := s.doneCalls ++ [.cancelled] }
      else if s.dispatched then { s with cancelSignalled := true }
      else s
  | .dispatch =>
      if s.queued then { s with queued := false, dispatched := true } else s
  | .runnerFinish ok =>
      if s.dispatched && s.runnerResult.isNone then
        { s with runnerResult := some ok }
      else s
  | .selectCancel =>
      if s.dispatched && s.cancelSignalled && !s.selectResolved then
        { s with selectResolved := true,
                 doneCalls := s.doneCalls ++ [.cancelled] }
      else s
  | .selectResult =>
      match s.runnerResult with
      | some ok =>
          if s.dispatched && !s.selectResolved then
            { s with selectResolved := true,
                     doneCalls := s.doneCalls ++
                       [if ok then .success else .failure] }
          else s
      | none => s

/-- A freshly scheduled work item: queued, no cancellation, no result, no
completion reported. -/
def initItem : ItemState :=
  { queued := true, removedByCancel := false, dispatched := false,
    cancelSignalled := false, runnerResult := none, selectResolved := false,
    doneCalls := [] }

/-- Run an interleaving (an arbitrary event sequence) from the initial
item state. -/
def runItem (evs : List QEvent) : ItemState :=
  evs.foldl qstep initItem

/-- The item's lifetime is over: it was either removed from the queue by a
cancellation before dispatch, or the worker resolved its select. -/
def itemCompleted (s : ItemState) : Bool :=
  s.removedByCancel || s.selectResolved

/-- State invariant of the work-item lifecycle: the phase flags are
mutually consistent and the completion callback has fired exactly once iff
the lifetime is over, never more. -/
def ItemInv (s : ItemState) : Prop :=
  (s.queued = true →
    s.removedByCancel = false ∧ s.dispatched = false ∧ s.selectResolved = false) ∧
  (s.selectResolved = true → s.dispatched = true) ∧
  (s.removedByCancel = true → s.dispatched = false ∧ s.queued = false) ∧
  s.doneCalls.length = (if s.removedByCancel || s.selectResolved then 1 else 0)

/-- Concrete fixtures used by the counterexample and witness theorems. -/
def exJobComplete : slicerjob.Job :=
  { id := "a", status := slicerjob.Complete, progress := 1, url := "u",
    gcodeURL := "g", created := some 1, updated := some 5, terminated := some 5 }

def exDBComplete : DBState :=
  { jobs := [("a", exJobComplete)], meshFiles := [("a", "/d/a.stl")],
    gCodeFiles := [("a", "/d/a.gcode")], delFiles := [] }

def exJobCancelled : slicerjob.Job :=
  { id := "a", status := slicerjob.Cancelled, progress := 0, url := "u",
    gcodeURL := "", created := some 1, updated := some 5, terminated := some 5 }

def exDBCancelled : DBState :=
  { jobs := [("a", exJobCancelled)], meshFiles := [("a", "/d/a.stl")],
    gCodeFiles := [], delFiles := [] }

def exJobProcessing : slicerjob.Job :=
  { id := "a", status := slicerjob.Processing, progress := 0, url := "u",
    gcodeURL := "", created := some 1, updated := some 2, terminated := none }

def exDBProcessing : DBState :=
  { jobs := [("a", exJobProcessing)], meshFiles := [("a", "/d/a.stl")],
    gCodeFiles := [], delFiles := [] }

def exDB4 : DBState :=
  { jobs := [("j", exJobComplete)], meshFiles := [("j", "/d/j.stl")],
    gCodeFiles := [("j", "/d/j.gcode")], delFiles := [] }

def exJobOld : slicerjob.Job :=
  { id := "a", status := slicerjob.Complete, progress := 1, url := "u",
    gcodeURL := "g", created := some 0, updated := some 1, terminated := some 1 }

def exDBOld : DBState :=
  { jobs := [("a", exJobOld)], meshFiles := [("a", "/d/a.stl")],
    gCodeFiles := [("a", "/d/a.gcode")], delFiles := [] }

def exJobAtCutoff : slicerjob.Job :=
  { id := "a", status := slicerjob.Complete, progress := 1, url := "u",
    gcodeURL := "g", created := some 1, updated := some 5, terminated := some 5 }

def exDBAtCutoff : DBState :=
  { jobs := [("a", exJobAtCutoff)], meshFiles := [("a", "/d/a.stl")],
    gCodeFiles := [("a", "/d/a.gcode")], delFiles := [] }

def exJobFresh : slicerjob.Job :=
  { id := "b", status := slicerjob.Complete, progress := 1, url := "u",
    gcodeURL := "g", created := some 6, updated := some 9, terminated := some 9 }

def exDBFresh : DBState :=
  { jobs := [("b", exJobFresh), ("a", exJobOld)],
    meshFiles := [("b", "/d/b.stl"), ("a", "/d/a.stl")],
    gCodeFiles := [], delFiles := [] }

theorem getK_putK_self {α : Type} (l : List (String × α)) (k : String) (v : α) :
    getK (putK l k v) k = some v := by
  induction l with
  | nil => simp [getK, putK]
  | cons p t ih =>
      obtain ⟨a, b⟩ := p
      by_cases h : a = k
      · simp [getK, putK, h]
      · simp [getK, putK, h, ih]

theorem getK_putK_ne {α : Type} (l : List (String × α)) (k k1 : String) (v : α)
    (h : k1 ≠ k) : getK (putK l k v) k1 = getK l k1 := by
  have h2 : ¬(k = k1) := fun e => h e.symm
  induction l with
  | nil => simp [getK, putK, h2]
  | cons p t ih =>
      obtain ⟨a, b⟩ := p
      by_cases ha : a = k
      · subst ha
        simp [getK, putK, h2]
      · by_cases ha1 : a = k1
        · simp [getK, putK, ha, ha1, h]
        · simp [getK, putK, ha, ha1, ih]

theorem getK_delK_self {α : Type} (l : List (String × α)) (k : String) :
    getK (delK l k) k = none := by
  induction l with
  | nil => simp [getK, delK]
  | cons p t ih =>
      obtain ⟨a, b⟩ := p
      by_cases h : a = k
      · simp [delK, h, ih]
      · simp [getK, delK, h, ih]

theorem getK_delK_ne {α : Type} (l : List (String × α)) (k k1 : String)
    (h : k1 ≠ k) : getK (delK l k) k1 = getK l k1 := by
  have h2 : ¬(k = k1) := fun e => h e.symm
  induction l with
  | nil => simp [delK]
  | cons p t ih =>
      obtain ⟨a, b⟩ := p
      by_cases ha : a = k
      · subst ha
        simp [getK, delK, h2, ih]
      · simp [getK, delK, ha, ih]

theorem getK_nodup_unique {α : Type} (l : List (String × α)) (k : String)
    (v : α) (hnd : (l.map Prod.fst).Nodup) (hget : getK l k = some v) :
    ∀ w, (k, w) ∈ l → w = v := by
  induction l with
  | nil => intro w hw; cases hw
  | cons p t ih =>
      obtain ⟨a, b⟩ := p
      simp only [List.map_cons, List.nodup_cons] at hnd
      intro w hw
      rcases List.mem_cons.mp hw with he | ht
      · cases he
        rw [getK, if_pos rfl] at hget
        cases hget
        rfl
      · have hak : a ≠ k := by
          intro e
          exact hnd.1 (by simpa [e] using List.mem_map_of_mem Prod.fst ht)
        rw [getK, if_neg hak] at hget
        exact ih hnd.2 hget w ht

theorem get?_isSome_iff {α : Type} (l : List α) (n : Nat) :
    (l.get? n).isSome = true ↔ n < l.length := by
  induction l generalizing n with
  | nil => simp [List.get?]
  | cons a t ih =>
      cases n with
      | zero => simp [List.get?]
      | succ m => simpa [List.get?, Nat.succ_lt_succ_iff] using ih m

/-- Claim C10: the string mapping of `Status` (and hence JSON marshalling)
is defined exactly on the six declared constants; every other integer makes
the table lookup `statusStrings[s]` go out of bounds. -/
theorem statusString_defined_iff (s : Int) :
    (slicerjob.statusString s).isSome = true ↔
      (s = slicerjob.Accepted ∨ s = slicerjob.Processing ∨
       s = slicerjob.Complete ∨ s = slicerjob.Failed ∨
       s = slicerjob.Cancelled ∨ s = slicerjob.Invalid) := by
  rw [show slicerjob.statusString s
        = slicerjob.goIndex slicerjob.statusStrings s from rfl,
    slicerjob.goIndex]
  simp only [slicerjob.Accepted, slicerjob.Processing,
    slicerjob.Complete, slicerjob.Failed, slicerjob.Cancelled,
    slicerjob.Invalid]
  by_cases h : s < 0
  · rw [if_pos h]
    simp only [Option.isSome_none, Bool.false_eq_true, false_iff]
    omega
  · rw [if_neg h, get?_isSome_iff]
    have hlen : slicerjob.statusStrings.length = 6 := by decide
    rw [hlen]
    omega

/-- Claim C7 counterexample: the wire string of the `Invalid` sentinel,
`INVALIDSTATUS`, is not one of the five valid wire strings, yet
`ParseStatus` accepts it with a nil error (because `statusParse` carries an
entry for every declared constant, `Invalid` included). -/
theorem parseStatus_invalidstatus_cex :
    slicerjob.ParseStatus "INVALIDSTATUS" = (slicerjob.Invalid, none) ∧
    "INVALIDSTATUS" ∉
      ["accepted", "processing", "complete", "failed", "cancelled"] := by
  decide

/-- Claim C7 (amended): the five valid wire strings parse to their statuses
with a nil error; the sixth table string `INVALIDSTATUS` parses to the
`Invalid` sentinel also with a nil error; every string outside the table
returns `Invalid` together with an error. -/
theorem parseStatus_classification :
    slicerjob.ParseStatus "accepted" = (slicerjob.Accepted, none) ∧
    slicerjob.ParseStatus "processing" = (slicerjob.Processing, none) ∧
    slicerjob.ParseStatus "complete" = (slicerjob.Complete, none) ∧
    slicerjob.ParseStatus "failed" = (slicerjob.Failed, none) ∧
    slicerjob.ParseStatus "cancelled" = (slicerjob.Cancelled, none) ∧
    slicerjob.ParseStatus "INVALIDSTATUS" = (slicerjob.Invalid, none) ∧
    ∀ str : String,
      str ∉ ["accepted", "processing", "complete", "failed", "cancelled",
             "INVALIDSTATUS"] →
      slicerjob.ParseStatus str = (slicerjob.Invalid, some "invalid status") := by
  refine ⟨by decide, by decide, by decide, by decide, by decide, by decide, ?_⟩
  intro str hstr
  have n1 : ¬("accepted" = str) := fun e => hstr (by simp [← e])
  have n2 : ¬("processing" = str) := fun e => hstr (by simp [← e])
  have n3 : ¬("complete" = str) := fun e => hstr (by simp [← e])
  have n4 : ¬("failed" = str) := fun e => hstr (by simp [← e])
  have n5 : ¬("cancelled" = str) := fun e => hstr (by simp [← e])
  have n6 : ¬("INVALIDSTATUS" = str) := fun e => hstr (by simp [← e])
  simp [slicerjob.ParseStatus, slicerjob.statusParse, getK,
    n1, n2, n3, n4, n5, n6]

/-- Claim C7 witness: a string outside the table is rejected with the
error and the `Invalid` sentinel. -/
theorem parseStatus_classification_witness :
    "bogus" ∉ ["accepted", "processing", "complete", "failed", "cancelled",
               "INVALIDSTATUS"] ∧
    slicerjob.ParseStatus "bogus" =
      (slicerjob.Invalid, some "invalid status") :=
  ⟨by decide, parseStatus_classification.2.2.2.2.2.2 "bogus" (by decide)⟩

/-- Claim C1 counterexample: job "a" is stored Complete with
terminated = 5; `CancelJob` at time 10 succeeds and rewrites the record to
Cancelled with terminated = 10, so a terminal record is neither left
unchanged nor protected from a later terminal transition. -/
theorem cancelJob_overwrites_terminal_cex :
    exJobComplete.status = slicerjob.Complete ∧
    exJobComplete.terminated = some 5 ∧
    ((CancelJob 10 "a" exDBComplete).toOption.bind
        (fun d => getK d.jobs "a")).map slicerjob.Job.status =
      some slicerjob.Cancelled ∧
    ((CancelJob 10 "a" exDBComplete).toOption.bind
        (fun d => getK d.jobs "a")).map slicerjob.Job.terminated =
      some (some 10) := by
  decide

/-- Claim C1 (amended): the store gives terminal records no protection.
`CancelJob` on any stored record — already terminal or not — sets the
status to Cancelled and restamps both `updated` and `terminated`; the
success completion path `JobDone` overwrites any stored record — a
Cancelled one included — with status Complete and a fresh `terminated`
stamp. -/
theorem terminal_records_not_protected
    (db : DBState) (id : String) (job : slicerjob.Job) (now : Nat)
    (srvURL gpath : String)
    (h : getK db.jobs id = some job) :
    CancelJob now id db =
      .ok ({ db with jobs := putK db.jobs id ({ job with
        status := slicerjob.Cancelled,
        terminated := some now, updated := some now }) }) ∧
    (job.status = slicerjob.Cancelled →
      getK (JobDone now srvURL id gpath none db).jobs id =
        some { job with status := slicerjob.Complete,
                        gcodeURL := srvURL ++ "/gcodes/" ++ id,
                        progress := 1, updated := some now,
                        terminated := some now }) := by
  constructor
  · simp only [CancelJob, h]
  · intro _
    simp only [JobDone]
    have h1 : getK ({ db with gCodeFiles := putK db.gCodeFiles id gpath }).jobs id
        = some job := h
    rw [h1]
    exact getK_putK_self _ _ _

/-- Claim C1 witness: the amended behaviour evaluated on a store holding a
Cancelled job. -/
theorem terminal_records_not_protected_witness :
    getK exDBCancelled.jobs "a" = some exJobCancelled ∧
    CancelJob 10 "a" exDBCancelled =
      .ok ({ exDBCancelled with jobs := putK exDBCancelled.jobs "a" ({ exJobCancelled with
        status := slicerjob.Cancelled,
        terminated := some 10, updated := some 10 }) }) ∧
    getK (JobDone 10 "http://h/slicer" "a" "/d/a.gcode" none exDBCancelled).jobs "a" =
      some { exJobCancelled with status := slicerjob.Complete,
                                 gcodeURL := "http://h/slicer" ++ "/gcodes/" ++ "a",
                                 progress := 1, updated := some 10,
                                 terminated := some 10 } := by
  refine ⟨by decide, ?_, ?_⟩
  · exact (terminal_records_not_protected exDBCancelled "a" exJobCancelled 10
      "http://h/slicer" "/d/a.gcode" (by decide)).1
  · exact (terminal_records_not_protected exDBCancelled "a" exJobCancelled 10
      "http://h/slicer" "/d/a.gcode" (by decide)).2 (by decide)

/-- Claim C3 (code bug): the completion signal with a non-nil error leaves
the store entirely unchanged — `JobDone` only logs
`FIXME -- failed job` and returns — so the record of job "a" stays
Processing instead of being updated to Failed. -/
theorem jobDone_error_not_failed :
    JobDone 10 "http://h/slicer" "a" "" (some "run: exit status 1")
        exDBProcessing = exDBProcessing ∧
    (getK exDBProcessing.jobs "a").map slicerjob.Job.status =
      some slicerjob.Processing ∧
    slicerjob.Processing ≠ slicerjob.Failed := by
  decide

/-- Claim C4 (code bug): cascading delete of job "j" (mesh entry
`/d/j.stl`, output entry `/d/j.gcode`). `delMeshFile` stages the mesh
entry but then deletes the id from the gcode registry instead of the mesh
registry; the follow-up `delGCodeFile` therefore finds its source already
gone and stages nothing. Afterwards the mesh registry still contains the
id, and no gcodes entry was staged into the pending-deletion registry. -/
theorem deleteJob_leaves_mesh_entry :
    deleteJob "T" "j" exDB4 =
      { jobs := [], meshFiles := [("j", "/d/j.stl")], gCodeFiles := [],
        delFiles := [("T/meshes/j", "/d/j.stl")] } ∧
    getK (deleteJob "T" "j" exDB4).meshFiles "j" = some "/d/j.stl" ∧
    getK (deleteJob "T" "j" exDB4).delFiles "T/gcodes/j" = none := by
  decide

theorem applyOr_delMeshFile_jobs (ts k : String) (db : DBState) :
    (applyOr (delMeshFile ts k db) db).jobs = db.jobs := by
  unfold applyOr delMeshFile boltCopyKey
  cases getK db.meshFiles k <;> rfl

theorem applyOr_delGCodeFile_jobs (ts k : String) (db : DBState) :
    (applyOr (delGCodeFile ts k db) db).jobs = db.jobs := by
  unfold applyOr delGCodeFile boltCopyKey
  cases getK db.gCodeFiles k <;> rfl

theorem deleteJob_jobs (ts k : String) (db : DBState) :
    (deleteJob ts k db).jobs = delK db.jobs k := by
  show delK (applyOr (delGCodeFile ts k (applyOr (delMeshFile ts k db) db))
    (applyOr (delMeshFile ts k db) db)).jobs k = delK db.jobs k
  rw [applyOr_delGCodeFile_jobs, applyOr_delMeshFile_jobs]

theorem deleteOldJobsLoop_preserves (ts : String) (termBefore : Nat)
    (oracle : Nat → Bool) (maxDel : Nat) (id : String) (job : slicerjob.Job) :
    ∀ (entries : List (String × slicerjob.Job)) (i numDel : Nat) (db : DBState),
      getK db.jobs id = some job →
      (∀ j, (id, j) ∈ entries → ∀ t, j.terminated = some t → termBefore < t) →
      getK (deleteOldJobsLoop ts termBefore oracle maxDel
        entries i numDel db).1.jobs id = some job := by
  intro entries
  induction entries with
  | nil =>
      intro i numDel db hget _
      simpa [deleteOldJobsLoop] using hget
  | cons e rest ih =>
      obtain ⟨k, j⟩ := e
      intro i numDel db hget hmem
      have hrest : ∀ j2, (id, j2) ∈ rest → ∀ t, j2.terminated = some t →
          termBefore < t :=
        fun j2 hj2 t ht => hmem j2 (List.mem_cons_of_mem _ hj2) t ht
      simp only [deleteOldJobsLoop]
      by_cases ho : oracle i = true
      · simp [ho, hget]
      · rw [if_neg ho]
        cases hj : j.terminated with
        | none => exact ih _ _ _ hget hrest
        | some t =>
            dsimp only
            by_cases hcut : termBefore < t
            · rw [if_pos hcut]
              exact ih _ _ _ hget hrest
            · rw [if_neg hcut]
              have hk : ¬(k = id) := by
                intro he
                subst he
                exact hcut (hmem j (List.mem_cons_self _ _) t hj)
              have hdel : getK (deleteJob ts k db).jobs id = some job := by
                rw [deleteJob_jobs, getK_delK_ne _ _ _ (fun e => hk e.symm)]
                exact hget
              by_cases hmax : numDel + 1 ≥ maxDel
              · simp only [if_pos hmax]
                exact hdel
              · simp only [if_neg hmax]
                exact ih _ _ _ hdel hrest

/-- Claim C5 (amended): `DeleteOldJobs` never deletes a job whose
`terminated` is null or strictly after the cutoff (the source deletes a
record whose `terminated` equals the cutoff exactly, because the skip test
is `job.Terminated.After(termBefore)`); non-terminal records are only
logged, never deleted, regardless of their age. -/
theorem deleteOldJobs_spares_fresh (ts : String) (termBefore : Nat)
    (oracle : Nat → Bool) (maxDel : Nat) (db : DBState) (id : String)
    (job : slicerjob.Job)
    (hnd : (db.jobs.map Prod.fst).Nodup)
    (hget : getK db.jobs id = some job)
    (hsafe : ∀ t, job.terminated = some t → termBefore < t) :
    getK (DeleteOldJobs ts termBefore oracle maxDel db).db.jobs id =
      some job := by
  have hmem : ∀ j, (id, j) ∈ db.jobs → ∀ t, j.terminated = some t →
      termBefore < t := by
    intro j hj t ht
    have hjv := getK_nodup_unique db.jobs id job hnd hget j hj
    subst hjv
    exact hsafe t ht
  exact deleteOldJobsLoop_preserves ts termBefore oracle maxDel id job
    db.jobs 0 0 db hget hmem

/-- Claim C5 witness: a sweep over a store holding an old job "a"
(terminated 1) and a fresh job "b" (terminated 9) with cutoff 5 keeps "b"
untouched. -/
theorem deleteOldJobs_spares_fresh_witness :
    (exDBFresh.jobs.map Prod.fst).Nodup ∧
    getK exDBFresh.jobs "b" = some exJobFresh ∧
    exJobFresh.terminated = some 9 ∧
    getK (DeleteOldJobs "T" 5 (fun _ => false) 10 exDBFresh).db.jobs "b" =
      some exJobFresh := by
  refine ⟨by decide, by decide, by decide, ?_⟩
  refine deleteOldJobs_spares_fresh "T" 5 (fun _ => false) 10 exDBFresh "b"
    exJobFresh (by decide) (by decide) ?_
  intro t ht
  rw [show exJobFresh.terminated = some 9 from rfl] at ht
  cases ht
  omega

/-- Claim C5 counterexample: with cutoff 5, a job whose `terminated` stamp
is exactly 5 — that is, greater than or equal to the cutoff — is deleted
by the sweep. -/
theorem deleteOldJobs_deletes_at_cutoff_cex :
    exJobAtCutoff.terminated = some 5 ∧
    getK exDBAtCutoff.jobs "a" = some exJobAtCutoff ∧
    getK (DeleteOldJobs "T" 5 (fun _ => false) 10 exDBAtCutoff).db.jobs "a" =
      none := by
  decide

theorem deleteOldJobsLoop_bound (ts : String) (termBefore : Nat)
    (oracle : Nat → Bool) (maxDel : Nat) :
    ∀ (entries : List (String × slicerjob.Job)) (i numDel : Nat) (db : DBState),
      numDel < maxDel →
      (deleteOldJobsLoop ts termBefore oracle maxDel
        entries i numDel db).2.1 ≤ maxDel ∧
      ((deleteOldJobsLoop ts termBefore oracle maxDel
          entries i numDel db).2.2 = true →
        (deleteOldJobsLoop ts termBefore oracle maxDel
          entries i numDel db).2.1 < maxDel) := by
  intro entries
  induction entries with
  | nil =>
      intro i numDel db hn
      constructor
      · simpa [deleteOldJobsLoop] using Nat.le_of_lt hn
      · intro hto
        simp [deleteOldJobsLoop] at hto
  | cons e rest ih =>
      obtain ⟨k, j⟩ := e
      intro i numDel db hn
      simp only [deleteOldJobsLoop]
      by_cases ho : oracle i = true
      · simp [ho, Nat.le_of_lt hn, hn]
      · rw [if_neg ho]
        cases hj : j.terminated with
        | none => exact ih _ _ _ hn
        | some t =>
            dsimp only
            by_cases hcut : termBefore < t
            · rw [if_pos hcut]
              exact ih _ _ _ hn
            · rw [if_neg hcut]
              by_cases hmax : numDel + 1 ≥ maxDel
              · simp only [if_pos hmax]
                constructor
                · simpa using hn
                · intro hto
                  simp at hto
              · simp only [if_neg hmax]
                exact ih _ _ _ (by omega)

/-- Claim C6 (amended): for every positive count bound, `DeleteOldJobs`
returns the max-reached signal `ErrMaxDeleted` exactly when it performed
`maxDel` deletions, the budget-exceeded signal `ErrExceededMaxDur` exactly
when the budget was observed to elapse between records before the scan
completed and the max was not reached, and no error otherwise. (With a
count bound of zero the max-reached signal no longer coincides with
"performed `maxDel` deletions"; see the counterexample.) -/
theorem deleteOldJobs_signal_classification (ts : String) (termBefore : Nat)
    (oracle : Nat → Bool) (maxDel : Nat) (db : DBState)
    (hmax : 1 ≤ maxDel) :
    ((DeleteOldJobs ts termBefore oracle maxDel db).result =
        GCResult.maxDeleted ↔
      (DeleteOldJobs ts termBefore oracle maxDel db).numDel = maxDel) ∧
    ((DeleteOldJobs ts termBefore oracle maxDel db).result =
        GCResult.exceededMaxDur ↔
      ((DeleteOldJobs ts termBefore oracle maxDel db).istimeout = true ∧
       (DeleteOldJobs ts termBefore oracle maxDel db).numDel < maxDel)) ∧
    ((DeleteOldJobs ts termBefore oracle maxDel db).result = GCResult.ok ↔
      ((DeleteOldJobs ts termBefore oracle maxDel db).istimeout = false ∧
       (DeleteOldJobs ts termBefore oracle maxDel db).numDel < maxDel)) := by
  have hb := deleteOldJobsLoop_bound ts termBefore oracle maxDel
    db.jobs 0 0 db (by omega)
  simp only [DeleteOldJobs]
  obtain ⟨h1, h2⟩ := hb
  by_cases hge : (deleteOldJobsLoop ts termBefore oracle maxDel
      db.jobs 0 0 db).2.1 ≥ maxDel
  · have heq : (deleteOldJobsLoop ts termBefore oracle maxDel
        db.jobs 0 0 db).2.1 = maxDel := le_antisymm h1 hge
    have ht : (deleteOldJobsLoop ts termBefore oracle maxDel
        db.jobs 0 0 db).2.2 = false := by
      cases hto : (deleteOldJobsLoop ts termBefore oracle maxDel
          db.jobs 0 0 db).2.2
      · rfl
      · exact absurd (h2 hto) (by omega)
    simp [hge, heq, ht]
  · have hlt : (deleteOldJobsLoop ts termBefore oracle maxDel
        db.jobs 0 0 db).2.1 < maxDel := by omega
    cases hto : (deleteOldJobsLoop ts termBefore oracle maxDel
        db.jobs 0 0 db).2.2
    · simp [hge, hto]
      omega
    · simp [hge, hto]
      omega

/-- Claim C6 witness: the classification evaluated with count bound 1 on a
store holding one stale job: the sweep deletes it and reports
`ErrMaxDeleted`. -/
theorem deleteOldJobs_signal_classification_witness :
    (1 : Nat) ≤ 1 ∧
    ((DeleteOldJobs "T" 5 (fun _ => false) 1 exDBOld).result =
        GCResult.maxDeleted ↔
      (DeleteOldJobs "T" 5 (fun _ => false) 1 exDBOld).numDel = 1) ∧
    ((DeleteOldJobs "T" 5 (fun _ => false) 1 exDBOld).result =
        GCResult.exceededMaxDur ↔
      ((DeleteOldJobs "T" 5 (fun _ => false) 1 exDBOld).istimeout = true ∧
       (DeleteOldJobs "T" 5 (fun _ => false) 1 exDBOld).numDel < 1)) ∧
    ((DeleteOldJobs "T" 5 (fun _ => false) 1 exDBOld).result = GCResult.ok ↔
      ((DeleteOldJobs "T" 5 (fun _ => false) 1 exDBOld).istimeout = false ∧
       (DeleteOldJobs "T" 5 (fun _ => false) 1 exDBOld).numDel < 1)) := by
  refine ⟨by decide, ?_⟩
  exact deleteOldJobs_signal_classification "T" 5 (fun _ => false) 1 exDBOld
    (by decide)

/-- Claim C6 counterexample: with count bound 0 (Go int, in range) and one
stale job, the sweep deletes one record and returns `ErrMaxDeleted` even
though the number of deletions performed (1) differs from the bound (0),
so the max-reached signal is not returned "exactly when maxCount deletions
were performed" for every count bound. -/
theorem deleteOldJobs_maxzero_cex :
    (DeleteOldJobs "T" 5 (fun _ => false) 0 exDBOld).result =
      GCResult.maxDeleted ∧
    (DeleteOldJobs "T" 5 (fun _ => false) 0 exDBOld).numDel = 1 ∧
    (DeleteOldJobs "T" 5 (fun _ => false) 0 exDBOld).istimeout = false ∧
    (1 : Nat) ≠ 0 := by
  decide

/-- Claim C8: the file sweep treats a pending-deletion entry whose recorded
path is missing from the filesystem as already deleted: processing the
entry surfaces no error and no timeout, removes the registry entry
(`delK reg k`, after which the key is gone), counts it toward the count
bound (`numDel + 1`), and leaves the filesystem untouched — identical to
the successful-unlink case except for the unlink itself. -/
theorem removeFiles_missing_file_still_swept
    (oracle : Nat → Bool) (maxDel : Nat) (k v : String)
    (rest : List (String × String)) (i numDel : Nat)
    (reg : List (String × String)) (fs : List String)
    (hmiss : v ∉ fs) (hto : oracle i = false) :
    removeFilesLoop oracle maxDel ((k, v) :: rest) i numDel reg fs =
      (if numDel + 1 ≥ maxDel then (delK reg k, fs, numDel + 1, false)
       else removeFilesLoop oracle maxDel rest (i+1) (numDel+1) (delK reg k) fs) ∧
    getK (delK reg k) k = none := by
  constructor
  · simp only [removeFilesLoop]
    rw [if_neg (by simp [hto]), if_neg hmiss]
  · exact getK_delK_self _ _

/-- Claim C8 witness: the missing-file step evaluated on a one-entry
registry whose path is absent from the filesystem. -/
theorem removeFiles_missing_file_still_swept_witness :
    "/d/j.stl" ∉ (["/other/file"] : List String) ∧
    (fun _ : Nat => false) 0 = false ∧
    (removeFilesLoop (fun _ => false) 10 [("2020/meshes/j", "/d/j.stl")] 0 0
        [("2020/meshes/j", "/d/j.stl")] ["/other/file"] =
      (if 0 + 1 ≥ 10 then
        (delK [("2020/meshes/j", "/d/j.stl")] "2020/meshes/j",
          ["/other/file"], 0 + 1, false)
       else removeFilesLoop (fun _ => false) 10 [] 1 1
         (delK [("2020/meshes/j", "/d/j.stl")] "2020/meshes/j")
         ["/other/file"]) ∧
     getK (delK [("2020/meshes/j", "/d/j.stl")] "2020/meshes/j")
       "2020/meshes/j" = none) := by
  refine ⟨by decide, rfl, ?_⟩
  exact removeFiles_missing_file_still_swept (fun _ => false) 10
    "2020/meshes/j" "/d/j.stl" [] 0 0 [("2020/meshes/j", "/d/j.stl")]
    ["/other/file"] (by decide) rfl

theorem getK_deleteJob_self (ts id : String) (db : DBState) :
    getK (deleteJob ts id db).jobs id = none := by
  rw [deleteJob_jobs]
  exact getK_delK_self _ _

theorem lookupJob_deleteJob (ts id : String) (db : DBState) :
    lookupJob (deleteJob ts id db) id =
      Except.error ("Job not found with id: " ++ id) := by
  simp [lookupJob, getK_deleteJob_self]

/-- Claim C9: when enqueuing the work item fails, `registerJob` unlinks the
mesh file, cascade-deletes the just-created job record, and returns the
scheduling error; a subsequent lookup of the job id fails with not-found,
so no never-enqueued job stays visible in the store. -/
theorem registerJob_schedule_failure_cleanup
    (db : DBState) (fs : List String) (id ext : String) (now : Nat)
    (ts srvURL dataDir e : String) :
    (registerJob db fs id ext now ts srvURL dataDir (some e)).2.2 =
      Except.error e ∧
    getK (registerJob db fs id ext now ts srvURL dataDir (some e)).1.jobs id =
      none ∧
    lookupJob (registerJob db fs id ext now ts srvURL dataDir (some e)).1 id =
      Except.error ("Job not found with id: " ++ id) := by
  refine ⟨rfl, ?_, ?_⟩
  · exact getK_deleteJob_self ts id _
  · exact lookupJob_deleteJob ts id _

theorem qstep_inv (s : ItemState) (e : QEvent) (h : ItemInv s) :
    ItemInv (qstep s e) := by
  obtain ⟨q, rm, dp, cs, rr, sr, dc⟩ := s
  obtain ⟨h1, h2, h3, h4⟩ := h
  cases e with
  | cancelRequest =>
      cases q <;> cases rm <;> cases dp <;> cases sr <;>
        simp_all [qstep, ItemInv]
  | dispatch =>
      cases q <;> cases rm <;> cases dp <;> cases sr <;>
        simp_all [qstep, ItemInv]
  | runnerFinish ok =>
      cases q <;> cases rm <;> cases dp <;> cases sr <;> cases rr <;>
        simp_all [qstep, ItemInv]
  | selectCancel =>
      cases q <;> cases rm <;> cases dp <;> cases cs <;> cases sr <;>
        simp_all [qstep, ItemInv]
  | selectResult =>
      cases q <;> cases rm <;> cases dp <;> cases sr <;> cases rr <;>
        simp_all [qstep, ItemInv]

theorem foldl_qstep_inv (l : List QEvent) :
    ∀ s : ItemState, ItemInv s → ItemInv (l.foldl qstep s) := by
  induction l with
  | nil => intro s hs; exact hs
  | cons e t ih => intro s hs; exact ih _ (qstep_inv s e hs)

theorem runItem_inv (evs : List QEvent) : ItemInv (runItem evs) := by
  refine foldl_qstep_inv evs initItem ?_
  refine ⟨?_, ?_, ?_, ?_⟩ <;> simp [initItem]

/-- Claim C2: over every interleaving of the single worker loop with a
concurrent cancellation request, the completion callback fires at most
once, and exactly once by the end of the item lifetime — by the queue
cancellation path, the worker select cancellation arm, or the worker
select result arm, never more than one of them — so exactly one of
success, failure, cancellation is ever reported for the item. -/
theorem done_called_exactly_once (evs : List QEvent) :
    (runItem evs).doneCalls.length ≤ 1 ∧
    (itemCompleted (runItem evs) = true →
      (runItem evs).doneCalls.length = 1) := by
  obtain ⟨-, -, -, h4⟩ := runItem_inv evs
  constructor
  · rw [h4]
    split <;> omega
  · intro hc
    rw [itemCompleted] at hc
    rw [h4, if_pos hc]

/-- Claim C2 witness: the interleaving dispatch, cancel request during the
run, runner success racing the cancellation, select resolving the cancel
arm — the callback fires exactly once. -/
theorem done_called_exactly_once_witness :
    itemCompleted (runItem [QEvent.dispatch, QEvent.cancelRequest,
      QEvent.runnerFinish true, QEvent.selectCancel]) = true ∧
    (runItem [QEvent.dispatch, QEvent.cancelRequest,
      QEvent.runnerFinish true, QEvent.selectCancel]).doneCalls.length = 1 :=
  ⟨by decide, (done_called_exactly_once [QEvent.dispatch, QEvent.cancelRequest,
      QEvent.runnerFinish true, QEvent.selectCancel]).2 (by decide)⟩

end Snuggies
